import Mathlib

/-!
Verification of the preserve_files repository (src/tar.py and src/preserve.py).

The source is shallowly embedded: each Python function becomes a Lean
definition over explicit inputs.  Filesystem state is a function from path
strings to contents (or to a Boolean existence flag where only existence
matters), subprocess effects become oracle functions passed in as arguments,
and printed error reports become explicit event values.
-/

namespace PreserveFiles

/-- Python `s.startswith(p)`, modelled over the character list so that it
evaluates by kernel reduction. -/
def str_startsWith (s p : String) : Bool := p.data.isPrefixOf s.data

/-- Python `s.endswith(p)`, modelled over the character list. -/
def str_endsWith (s p : String) : Bool := p.data.isSuffixOf s.data

/-- Python `s.lower()`, modelled over the character list. -/
def str_toLower (s : String) : String := ⟨s.data.map Char.toLower⟩

/-- Raw byte content of a file, as read via `tar -x -O`. -/
abbrev Bytes := List Nat

/-- Filesystem contents: each path maps to the bytes stored there, if any. -/
abbrev FS := String → Option Bytes

/-- Writing a file with `open(target, 'wb')`: truncates/overwrites the target. -/
def FS.write (fs : FS) (p : String) (b : Bytes) : FS :=
  fun q => if q = p then some b else fs q

/-- `os.path.isabs` on POSIX: the path starts with a path separator. -/
def isabs (p : String) : Bool := str_startsWith p "/"

/-- `os.path.abspath(p)` with working directory `cwd`: a path that is not
absolute is resolved against the current working directory.  Dot-segment
normalisation is not modelled; no behaviour below depends on it. -/
def abspath (cwd p : String) : String :=
  if isabs p then p else cwd ++ "/" ++ p

/-- The restoration-target computation of `untar_files` (src/tar.py lines
106-113): a member name starting with `Users/` or `home/` gets a leading
separator re-prepended; otherwise a non-absolute name is resolved against
the current working directory; an absolute name is kept as is. -/
def target_path (cwd member : String) : String :=
  if str_startsWith member "Users/" || str_startsWith member "home/" then
    "/" ++ member
  else if !(isabs member) then
    abspath cwd member
  else
    member

/-- Per-member effect oracles for the extraction loop: whether the
`tar -x -O <member>` subprocess succeeds (and with which bytes), and whether
opening/writing the target path succeeds. -/
structure ExtractEnv where
  extract : String → Option Bytes
  writeOk : String → Bool

/-- One observable event of the extraction loop: a successful restore, a
failed `tar -x` subprocess (reported, loop continues), or a failed write to
the target path (reported, loop continues). -/
inductive UntarEvent where
  | wrote (member target : String) (content : Bytes)
  | extractError (member : String)
  | writeError (member target : String)
  deriving DecidableEq, Repr

/-- One iteration of the member loop of `untar_files` (src/tar.py lines
101-138): empty names and directory members (names ending in `/`) are
skipped; otherwise the member is extracted and written to its target. -/
def untar_step (cwd : String) (env : ExtractEnv) (fs : FS) (member : String) :
    FS × List UntarEvent :=
  if member = "" || str_endsWith member "/" then
    (fs, [])
  else
    let target := target_path cwd member
    match env.extract member with
    | none => (fs, [.extractError member])
    | some bytes =>
        if env.writeOk target then
          (fs.write target bytes, [.wrote member target bytes])
        else
          (fs, [.writeError member target])

/-- The member loop of `untar_files`, over the listed member names in order. -/
def untar_loop (cwd : String) (env : ExtractEnv) (fs : FS) :
    List String → FS × List UntarEvent
  | [] => (fs, [])
  | m :: ms =>
      let r1 := untar_step cwd env fs m
      let r2 := untar_loop cwd env r1.1 ms
      (r2.1, r1.2 ++ r2.2)

/-- Outcome of `untar_files`: the archive file was missing, listing the
archive failed (wrong/corrupt format), or the member loop ran to completion
with the given events. -/
inductive UntarOutcome where
  | archiveNotFound
  | listError
  | completed (events : List UntarEvent)
  deriving DecidableEq, Repr

/-- `untar_files` (src/tar.py lines 73-140): checks the archive exists, lists
its members (`listing = none` models a failed `tar -t` subprocess), then runs
the member loop.  Returns the outcome together with the final filesystem. -/
def untar_files (archiveExists : Bool) (listing : Option (List String))
    (cwd : String) (env : ExtractEnv) (fs : FS) : UntarOutcome × FS :=
  if !archiveExists then
    (.archiveNotFound, fs)
  else
    match listing with
    | none => (.listError, fs)
    | some members =>
        let r := untar_loop cwd env fs members
        (.completed r.2, r.1)

/-- Outcome of `tar_files`: nothing to archive (empty manifest or no listed
path exists), archive created with the given member list, or the tar
subprocess failed. -/
inductive TarOutcome where
  | nothingToArchive
  | created (archive : String) (members : List String)
  | createError
  deriving DecidableEq, Repr

/-- `tar_files` (src/tar.py lines 27-70): filters the manifest paths by
existence, warning about each missing one; with no existing path it archives
nothing, otherwise it invokes tar on exactly the existing paths, passed
verbatim.  Returns the outcome and the list of warned-about missing paths. -/
def tar_files (fsExists : String → Bool) (tarOk : Bool) (archive_name : String)
    (files_to_tar : List String) : TarOutcome × List String :=
  if files_to_tar.isEmpty then
    (.nothingToArchive, [])
  else
    let existing := files_to_tar.filter fsExists
    let warnings := files_to_tar.filter (fun p => !(fsExists p))
    if existing.isEmpty then
      (.nothingToArchive, warnings)
    else if tarOk then
      (.created archive_name existing, warnings)
    else
      (.createError, warnings)

/-- Filesystem existence map used by the deleters. -/
abbrev ExistsFS := String → Bool

/-- One per-path report of `delete_files`: deleted, deletion failed
(reported, loop continues), or the path did not exist (skipped). -/
inductive DeleteEvent where
  | deleted (p : String)
  | deleteError (p : String)
  | skippedMissing (p : String)
  deriving DecidableEq, Repr

/-- One iteration of the loop of `delete_files` (src/tar.py lines 155-163):
an existing path is removed (or the failure reported); a missing path is
reported as skipped. -/
def delete_step (removeOk : String → Bool) (fs : ExistsFS) (p : String) :
    ExistsFS × DeleteEvent :=
  if fs p then
    if removeOk p then
      ((fun q => if q = p then false else fs q), .deleted p)
    else
      (fs, .deleteError p)
  else
    (fs, .skippedMissing p)

/-- The path loop of `delete_files`, over the manifest paths in order. -/
def delete_loop (removeOk : String → Bool) (fs : ExistsFS) :
    List String → ExistsFS × List DeleteEvent
  | [] => (fs, [])
  | p :: ps =>
      let r1 := delete_step removeOk fs p
      let r2 := delete_loop removeOk r1.1 ps
      (r2.1, r1.2 :: r2.2)

/-- `delete_files` (src/tar.py lines 143-165): removes each manifest path in
order; an empty manifest deletes nothing. -/
def delete_files (removeOk : String → Bool) (fs : ExistsFS)
    (files_to_delete : List String) : ExistsFS × List DeleteEvent :=
  delete_loop removeOk fs files_to_delete

/-- `file.endswith(...)` test of `delete_all_tar_files` (src/tar.py line
171). -/
def is_tar_name (file : String) : Bool :=
  str_endsWith file ".tar.gz" || str_endsWith file ".tgz" ||
    str_endsWith file ".tar.bz2" || str_endsWith file ".tar"

/-- One per-file report of `delete_all_tar_files`. -/
inductive DeleteTarEvent where
  | deleted (f : String)
  | deleteError (f : String)
  deriving DecidableEq, Repr

/-- `delete_all_tar_files` (src/tar.py lines 167-177): over the directory
listing, removes each entry whose name has a tar suffix, reporting each
failure and continuing; entries without a tar suffix are not touched. -/
def delete_all_tar_files (removeOk : String → Bool) (fs : ExistsFS) :
    List String → ExistsFS × List DeleteTarEvent
  | [] => (fs, [])
  | f :: rest =>
      if is_tar_name f then
        if removeOk f then
          let fs1 : ExistsFS := fun q => if q = f then false else fs q
          let r := delete_all_tar_files removeOk fs1 rest
          (r.1, .deleted f :: r.2)
        else
          let r := delete_all_tar_files removeOk fs rest
          (r.1, .deleteError f :: r.2)
      else
        delete_all_tar_files removeOk fs rest

/-- The dispatch of `main` in src/tar.py (lines 180-209): which operation a
command-line invocation runs, with the default arguments it passes.  `tar`
and `delete` call `tar_files`/`delete_files` with the default manifest file
`harness.json`. -/
inductive TarMainAction where
  | usage
  | runTar (archive_name harness_file : String)
  | runUntar (archive_name : String)
  | runDelete (harness_file : String)
  | runDeleteTar
  | unknown (cmd : String)
  deriving DecidableEq, Repr

/-- `main` of src/tar.py: argv after the script name. -/
def tar_main (argv : List String) : TarMainAction :=
  match argv with
  | [] => .usage
  | cmd :: rest =>
      let c := str_toLower cmd
      if c = "tar" then
        .runTar (rest.headD "preserved_files.tar.gz") "harness.json"
      else if c = "untar" then
        .runUntar (rest.headD "preserved_files.tar.gz")
      else if c = "delete" then
        .runDelete "harness.json"
      else if c = "delete_tar" then
        .runDeleteTar
      else
        .unknown c

/-- Python `a or b` over optional strings: an empty string is falsy. -/
def pyOr (a b : Option String) : Option String :=
  match a with
  | some s => if s = "" then b else some s
  | none => b

/-- Python truthiness of an optional string. -/
def truthy : Option String → Bool
  | none => false
  | some s => !(s = "")

/-- State of a successfully constructed `Preserver` (src/preserve.py). -/
structure PreserverState where
  unique_key : String
  archive_name : String
  bucket_name : String
  aws_profile : Option String
  deriving DecidableEq, Repr

/-- Construction failures of `Preserver.__init__`: the `ValueError` for a
missing bucket name, or the `RuntimeError` when the AWS CLI is unavailable. -/
inductive InitError where
  | missingBucket
  | missingAwsCli
  deriving DecidableEq, Repr

/-- `Preserver.__init__` (src/preserve.py lines 18-42): resolves the bucket
from the argument or the `PRESERVE_BUCKET` environment variable and the
profile from the argument or `AWS_PROFILE`; raises before anything else if
no bucket resolves; only then probes the AWS CLI with one subprocess.
Returns the construction result together with the list of subprocess
commands issued during construction. -/
def Preserver.init (unique_key : String) (bucket_name : Option String)
    (aws_profile : Option String) (env : String → Option String)
    (awsCliOk : Bool) : Except InitError PreserverState × List (List String) :=
  let bucket := pyOr bucket_name (env "PRESERVE_BUCKET")
  let profile := pyOr aws_profile (env "AWS_PROFILE")
  if !(truthy bucket) then
    (.error .missingBucket, [])
  else if awsCliOk then
    (.ok { unique_key := unique_key,
           archive_name := unique_key ++ ".tar.gz",
           bucket_name := bucket.getD "",
           aws_profile := profile },
     [["aws", "--version"]])
  else
    (.error .missingAwsCli, [["aws", "--version"]])

/-- `Preserver._build_aws_command` (src/preserve.py lines 44-56). -/
def build_aws_command (st : PreserverState) (command : List String) :
    List String :=
  if truthy st.aws_profile then
    ["aws", "--profile", st.aws_profile.getD ""] ++ command
  else
    ["aws"] ++ command

/-- Effect oracles for `Preserver.push`: whether the `tar.py tar` subprocess
exits successfully, whether the archive file exists afterwards, and whether
the S3 upload succeeds. -/
structure PushEnv where
  tarSucceeds : Bool
  archiveExistsAfterTar : Bool
  uploadOk : Bool
  deriving DecidableEq, Repr

/-- `Preserver.push` (src/preserve.py lines 58-108): runs
`python tar.py tar <archive_name>` (note: the `harness_file` parameter is
taken but never used by the body), checks the archive exists, then uploads
it with the AWS CLI.  Returns the success flag and the subprocess commands
issued, in order. -/
def Preserver.push (st : PreserverState) (harness_file : String)
    (env : PushEnv) : Bool × List (List String) :=
  let _ := harness_file
  let tarCmd := ["python", "tar.py", "tar", st.archive_name]
  if !env.tarSucceeds then
    (false, [tarCmd])
  else if !env.archiveExistsAfterTar then
    (false, [tarCmd])
  else
    let s3_path := "s3://" ++ st.bucket_name ++ "/" ++ st.archive_name
    let upCmd := build_aws_command st ["s3", "cp", st.archive_name, s3_path]
    if env.uploadOk then
      (true, [tarCmd, upCmd])
    else
      (false, [tarCmd, upCmd])

/-! ## Helper lemmas -/

/-- Unfolding equation of the member loop on a cons cell. -/
theorem untar_loop_cons (cwd : String) (env : ExtractEnv) (fs : FS)
    (m : String) (ms : List String) :
    untar_loop cwd env fs (m :: ms)
      = ((untar_loop cwd env (untar_step cwd env fs m).1 ms).1,
         (untar_step cwd env fs m).2
           ++ (untar_loop cwd env (untar_step cwd env fs m).1 ms).2) := rfl

/-- The member loop distributes over list append: the members after a given
point are processed from the filesystem state left by the members before it,
and the event logs are concatenated. -/
theorem untar_loop_append (cwd : String) (env : ExtractEnv) :
    ∀ (xs ys : List String) (fs : FS),
      untar_loop cwd env fs (xs ++ ys)
        = ((untar_loop cwd env (untar_loop cwd env fs xs).1 ys).1,
           (untar_loop cwd env fs xs).2
             ++ (untar_loop cwd env (untar_loop cwd env fs xs).1 ys).2) := by
  intro xs
  induction xs with
  | nil => intro ys fs; simp [untar_loop]
  | cons x xs ih =>
      intro ys fs
      rw [List.cons_append, untar_loop_cons, ih ys, untar_loop_cons]
      simp [List.append_assoc]

/-- Any `wrote` event emitted by a single loop iteration names that
iteration's member, which passed the skip test. -/
theorem untar_step_wrote_inv (cwd : String) (env : ExtractEnv) (fs : FS)
    (x m t : String) (b : Bytes)
    (h : UntarEvent.wrote m t b ∈ (untar_step cwd env fs x).2) :
    m = x ∧ x ≠ "" ∧ str_endsWith x "/" = false := by
  by_cases hx1 : x = ""
  · simp [untar_step, hx1] at h
  · by_cases hx2 : str_endsWith x "/" = true
    · simp [untar_step, hx2] at h
    · refine ⟨?_, hx1, by simpa using hx2⟩
      cases hex : env.extract x with
      | none => simp [untar_step, hx1, hx2, hex] at h
      | some bytes =>
          by_cases hw : env.writeOk (target_path cwd x) = true
          · simp [untar_step, hx1, hx2, hex, hw] at h
            exact h.1
          · simp [untar_step, hx1, hx2, hex, hw] at h

/-- Every `wrote` event of the member loop comes from a member that is
neither empty nor a directory name. -/
theorem untar_loop_wrote_sound (cwd : String) (env : ExtractEnv) :
    ∀ (members : List String) (fs : FS) (m t : String) (b : Bytes),
      UntarEvent.wrote m t b ∈ (untar_loop cwd env fs members).2 →
      m ≠ "" ∧ str_endsWith m "/" = false := by
  intro members
  induction members with
  | nil => intro fs m t b h; simp [untar_loop] at h
  | cons x xs ih =>
      intro fs m t b h
      rw [untar_loop_cons] at h
      simp only [List.mem_append] at h
      rcases h with h | h
      · obtain ⟨hmx, hx1, hx2⟩ := untar_step_wrote_inv cwd env fs x m t b h
        exact ⟨hmx ▸ hx1, hmx ▸ hx2⟩
      · exact ih _ m t b h

/-! ## Claims -/

/-- C1: a member name beginning with `Users/` or `home/` is restored to that
name with a leading path separator prepended. -/
theorem untar_target_prefix_restores_absolute (cwd member : String)
    (h : str_startsWith member "Users/" = true ∨
         str_startsWith member "home/" = true) :
    target_path cwd member = "/" ++ member := by
  unfold target_path
  rcases h with h | h <;> simp [h]

/-- Witness for C1 at the spec's example member name. -/
theorem untar_target_prefix_restores_absolute_witness :
    target_path "/tmp" "home/alice/file.txt" = "/home/alice/file.txt" :=
  untar_target_prefix_restores_absolute "/tmp" "home/alice/file.txt"
    (Or.inr (by decide))

/-- C2: a member name with no recognised prefix that is not absolute is
restored to that name resolved against the current working directory. -/
theorem untar_target_relative_resolved_against_cwd (cwd member : String)
    (h1 : str_startsWith member "Users/" = false)
    (h2 : str_startsWith member "home/" = false)
    (h3 : isabs member = false) :
    target_path cwd member = abspath cwd member ∧
    abspath cwd member = cwd ++ "/" ++ member := by
  refine ⟨?_, ?_⟩
  · unfold target_path
    simp [h1, h2, h3]
  · unfold abspath
    simp [h3]

/-- Witness for C2 at the spec's example member name. -/
theorem untar_target_relative_resolved_against_cwd_witness :
    target_path "/work" "project/data.bin" = "/work/project/data.bin" := by
  have h := untar_target_relative_resolved_against_cwd "/work" "project/data.bin"
    (by decide) (by decide) (by decide)
  rw [h.1, h.2]
  decide

/-- C3: empty-named members and directory members (name ending in `/`) are
skipped without any write or event, and every write the loop performs comes
from a non-empty, non-directory member. -/
theorem untar_skips_directory_and_empty_members
    (cwd : String) (env : ExtractEnv) (fs : FS) (members : List String) :
    (∀ m, (m = "" ∨ str_endsWith m "/" = true) →
      untar_step cwd env fs m = (fs, [])) ∧
    (∀ m t b, UntarEvent.wrote m t b ∈ (untar_loop cwd env fs members).2 →
      m ≠ "" ∧ str_endsWith m "/" = false) := by
  refine ⟨?_, fun m t b h => untar_loop_wrote_sound cwd env members fs m t b h⟩
  intro m hm
  unfold untar_step
  rcases hm with hm | hm
  · simp [hm]
  · simp [hm]

/-- Witness for C3: on a listing with a directory member, an empty member
and one file member, only the file member is written. -/
theorem untar_skips_directory_and_empty_members_witness :
    ("f.txt" ≠ "" ∧ str_endsWith "f.txt" "/" = false) ∧
    untar_step "/w"
      ⟨fun _ => some [7], fun _ => true⟩ (fun _ => none) "dir/"
      = ((fun _ => none), []) := by
  have h := untar_skips_directory_and_empty_members "/w"
    ⟨fun _ => some [7], fun _ => true⟩ (fun _ => none) ["dir/", "", "f.txt"]
  refine ⟨h.2 "f.txt" "/w/f.txt" [7] ?_, h.1 "dir/" (Or.inr (by decide))⟩
  decide

/-- C4: a missing archive file, or a failed listing of the archive, aborts
the whole restore with the corresponding failure outcome: no member is
processed and the filesystem is unchanged. -/
theorem untar_open_failure_processes_no_members
    (listing : Option (List String)) (cwd : String) (env : ExtractEnv)
    (fs : FS) :
    untar_files false listing cwd env fs = (.archiveNotFound, fs) ∧
    untar_files true none cwd env fs = (.listError, fs) :=
  ⟨rfl, rfl⟩

/-- C5: a member whose target write fails produces exactly one error event,
leaves the filesystem (hence every previously restored member) unchanged at
its step, and the loop still processes all members before and after it. -/
theorem untar_member_write_failure_is_isolated
    (cwd : String) (env : ExtractEnv) (fs : FS) (xs ys : List String)
    (m : String) (b : Bytes)
    (hm1 : m ≠ "") (hm2 : str_endsWith m "/" = false)
    (hex : env.extract m = some b)
    (hw : env.writeOk (target_path cwd m) = false) :
    untar_step cwd env fs m = (fs, [.writeError m (target_path cwd m)]) ∧
    (untar_loop cwd env fs (xs ++ m :: ys)).1
      = (untar_loop cwd env (untar_loop cwd env fs xs).1 ys).1 ∧
    (untar_loop cwd env fs (xs ++ m :: ys)).2
      = (untar_loop cwd env fs xs).2
          ++ UntarEvent.writeError m (target_path cwd m)
            :: (untar_loop cwd env (untar_loop cwd env fs xs).1 ys).2 := by
  have hstep2 : ∀ g : FS, untar_step cwd env g m
      = (g, [UntarEvent.writeError m (target_path cwd m)]) := by
    intro g
    simp [untar_step, hm1, hm2, hex, hw]
  refine ⟨hstep2 fs, ?_, ?_⟩
  · rw [untar_loop_append cwd env xs (m :: ys) fs, untar_loop_cons, hstep2]
  · rw [untar_loop_append cwd env xs (m :: ys) fs, untar_loop_cons, hstep2]
    simp

/-- Witness for C5: a two-member archive where the second member's write
fails; the first member's restored content survives in the event log and
the failing member yields exactly one error event. -/
theorem untar_member_write_failure_is_isolated_witness :
    untar_step "/w"
        ⟨fun _ => some [7], fun t => t ≠ "/w/bad.txt"⟩ (fun _ => none) "bad.txt"
      = ((fun _ => none), [.writeError "bad.txt" "/w/bad.txt"]) := by
  have h := untar_member_write_failure_is_isolated "/w"
    ⟨fun _ => some [7], fun t => t ≠ "/w/bad.txt"⟩ (fun _ => none)
    ["ok.txt"] [] "bad.txt" [7] (by decide) (by decide) rfl (by decide)
  have e : target_path "/w" "bad.txt" = "/w/bad.txt" := by decide
  have h1 := h.1
  rw [e] at h1
  exact h1

/-- C6: the archive builder archives exactly the candidate paths that exist,
verbatim and in order, warns about each missing path, and with no existing
candidate reports the distinct nothing-to-archive outcome instead of
creating an archive. -/
theorem tar_files_archives_exactly_existing
    (fsExists : String → Bool) (tarOk : Bool) (archive_name : String)
    (files : List String) :
    (tar_files fsExists tarOk archive_name files).2
        = files.filter (fun p => !(fsExists p)) ∧
    (files.filter fsExists = [] →
      tar_files fsExists tarOk archive_name files
        = (.nothingToArchive, files.filter (fun p => !(fsExists p)))) ∧
    (files.filter fsExists ≠ [] → tarOk = true →
      tar_files fsExists tarOk archive_name files
        = (.created archive_name (files.filter fsExists),
           files.filter (fun p => !(fsExists p)))) := by
  unfold tar_files
  cases files with
  | nil => simp
  | cons f rest =>
      by_cases he : (f :: rest).filter fsExists = []
      · simp [he]
      · by_cases ht : tarOk = true
        · simp [he, ht]
        · simp [he, ht]

/-- Witness for C6: one existing and one missing candidate; the archive gets
exactly the existing one and the missing one is warned about. -/
theorem tar_files_archives_exactly_existing_witness :
    tar_files (fun p => p == "a.txt") true "x.tar.gz" ["a.txt", "missing"]
      = (.created "x.tar.gz" ["a.txt"], ["missing"]) := by
  have h := tar_files_archives_exactly_existing (fun p => p == "a.txt") true
    "x.tar.gz" ["a.txt", "missing"]
  have h2 := h.2.2 (by decide) rfl
  rw [h2]
  decide

/-- Unfolding equation of the deletion loop on a cons cell. -/
theorem delete_loop_cons (removeOk : String → Bool) (fs : ExistsFS)
    (p : String) (ps : List String) :
    delete_loop removeOk fs (p :: ps)
      = ((delete_loop removeOk (delete_step removeOk fs p).1 ps).1,
         (delete_step removeOk fs p).2
           :: (delete_loop removeOk (delete_step removeOk fs p).1 ps).2) := rfl

/-- The deletion loop emits exactly one report per manifest path. -/
theorem delete_loop_length (removeOk : String → Bool) :
    ∀ (files : List String) (fs : ExistsFS),
      (delete_loop removeOk fs files).2.length = files.length := by
  intro files
  induction files with
  | nil => intro fs; rfl
  | cons p ps ih =>
      intro fs
      rw [delete_loop_cons]
      simp [ih]

/-- The deletion loop distributes over list append. -/
theorem delete_loop_append (removeOk : String → Bool) :
    ∀ (xs ys : List String) (fs : ExistsFS),
      delete_loop removeOk fs (xs ++ ys)
        = ((delete_loop removeOk (delete_loop removeOk fs xs).1 ys).1,
           (delete_loop removeOk fs xs).2
             ++ (delete_loop removeOk (delete_loop removeOk fs xs).1 ys).2) := by
  intro xs
  induction xs with
  | nil => intro ys fs; simp [delete_loop]
  | cons x xs ih =>
      intro ys fs
      rw [List.cons_append, delete_loop_cons, ih ys, delete_loop_cons]
      simp

/-- C7: the manifest deleter reports once per listed path (so a failure
never aborts the remaining paths, which are processed from the state the
earlier paths left), removes an existing path when removal succeeds,
reports a missing path as skipped rather than as an error, and reports a
failed removal as an error while leaving the filesystem unchanged. -/
theorem delete_files_per_path_independent
    (removeOk : String → Bool) (fs : ExistsFS) (files xs ys : List String)
    (p : String) :
    (delete_files removeOk fs files).2.length = files.length ∧
    (fs p = false → delete_step removeOk fs p = (fs, .skippedMissing p)) ∧
    (fs p = true → removeOk p = true →
      delete_step removeOk fs p
          = ((fun q => if q = p then false else fs q), .deleted p) ∧
      (delete_step removeOk fs p).1 p = false) ∧
    (fs p = true → removeOk p = false →
      delete_step removeOk fs p = (fs, .deleteError p)) ∧
    (delete_files removeOk fs (xs ++ ys)).2
      = (delete_loop removeOk fs xs).2
          ++ (delete_loop removeOk (delete_loop removeOk fs xs).1 ys).2 := by
  refine ⟨delete_loop_length removeOk files fs, ?_, ?_, ?_, ?_⟩
  · intro h
    simp [delete_step, h]
  · intro h1 h2
    refine ⟨by simp [delete_step, h1, h2], by simp [delete_step, h1, h2]⟩
  · intro h1 h2
    simp [delete_step, h1, h2]
  · unfold delete_files
    rw [delete_loop_append]

/-- Witness for C7: a three-path manifest where the first exists and is
removable, the second exists but fails to delete, and the third is missing;
all three get reports. -/
theorem delete_files_per_path_independent_witness :
    (delete_files (fun p => p == "a") (fun p => p == "a" || p == "b")
        ["a", "b", "c"]).2.length = 3 ∧
    delete_step (fun p => p == "a") (fun p => p == "a" || p == "b") "c"
      = ((fun p => p == "a" || p == "b"), .skippedMissing "c") ∧
    delete_step (fun p => p == "a") (fun p => p == "a" || p == "b") "b"
      = ((fun p => p == "a" || p == "b"), .deleteError "b") :=
  ⟨(delete_files_per_path_independent (fun p => p == "a")
      (fun p => p == "a" || p == "b") ["a", "b", "c"] [] [] "c").1,
   (delete_files_per_path_independent (fun p => p == "a")
      (fun p => p == "a" || p == "b") ["a", "b", "c"] [] [] "c").2.1 (by decide),
   (delete_files_per_path_independent (fun p => p == "a")
      (fun p => p == "a" || p == "b") ["a", "b", "c"] [] [] "b").2.2.2.1
      (by decide) (by decide)⟩

/-- C8: constructing a `Preserver` with no bucket argument and no
`PRESERVE_BUCKET` environment value fails with the missing-bucket error and
issues no subprocess command at all (in particular no network transfer),
and no `PreserverState` exists for any operation to run on. -/
theorem preserver_init_missing_bucket_fails
    (unique_key : String) (aws_profile : Option String)
    (env : String → Option String) (awsCliOk : Bool)
    (henv : env "PRESERVE_BUCKET" = none) :
    Preserver.init unique_key none aws_profile env awsCliOk
      = (.error .missingBucket, []) := by
  simp [Preserver.init, pyOr, truthy, henv]

/-- Witness for C8 at a concrete empty environment. -/
theorem preserver_init_missing_bucket_fails_witness :
    Preserver.init "k" none none (fun _ => none) true
      = (.error .missingBucket, []) :=
  preserver_init_missing_bucket_fails "k" none (fun _ => none) true rfl

/-- C9: `push` ignores its `harness_file` parameter entirely: any two values
give identical results and identical subprocess command lists, the archive
step always runs `python tar.py tar <archive_name>` with no manifest
argument, and that invocation makes tar.py read the default `harness.json`
manifest. -/
theorem push_ignores_harness_file_param
    (st : PreserverState) (env : PushEnv) (h1 h2 : String) :
    Preserver.push st h1 env = Preserver.push st h2 env ∧
    (Preserver.push st h1 env).2.head?
        = some ["python", "tar.py", "tar", st.archive_name] ∧
    tar_main ["tar", st.archive_name]
        = .runTar st.archive_name "harness.json" := by
  refine ⟨rfl, ?_, ?_⟩
  · unfold Preserver.push
    by_cases ht : env.tarSucceeds = true
    · by_cases ha : env.archiveExistsAfterTar = true
      · by_cases hu : env.uploadOk = true <;> simp [ht, ha, hu]
      · simp [ht, ha]
    · simp [ht]
  · have hl : str_toLower "tar" = "tar" := by decide
    simp [tar_main, hl]

/-- Unfolding equation of `delete_all_tar_files` on a cons cell. -/
theorem delete_all_tar_files_cons (removeOk : String → Bool) (fs : ExistsFS)
    (f : String) (rest : List String) :
    delete_all_tar_files removeOk fs (f :: rest)
      = if is_tar_name f then
          if removeOk f then
            ((delete_all_tar_files removeOk
                (fun q => if q = f then false else fs q) rest).1,
             .deleted f :: (delete_all_tar_files removeOk
                (fun q => if q = f then false else fs q) rest).2)
          else
            ((delete_all_tar_files removeOk fs rest).1,
             .deleteError f :: (delete_all_tar_files removeOk fs rest).2)
        else
          delete_all_tar_files removeOk fs rest := rfl

/-- A path already absent stays absent through `delete_all_tar_files`. -/
theorem delete_all_tar_files_stays_removed (removeOk : String → Bool)
    (q : String) :
    ∀ (listing : List String) (fs : ExistsFS), fs q = false →
      (delete_all_tar_files removeOk fs listing).1 q = false := by
  intro listing
  induction listing with
  | nil => intro fs h; exact h
  | cons f rest ih =>
      intro fs h
      rw [delete_all_tar_files_cons]
      by_cases h1 : is_tar_name f = true
      · by_cases h2 : removeOk f = true
        · simp only [h1, h2, if_true]
          exact ih _ (by by_cases hqf : q = f <;> simp [hqf, h])
        · simp only [h1, h2, if_true, if_false, Bool.false_eq_true]
          exact ih _ h
      · simp only [h1, Bool.false_eq_true, if_false]
        exact ih _ h

/-- C10: the `delete_tar` CLI command dispatches to `delete_all_tar_files`,
which reports exactly one event (deleted, or a non-aborting per-file error)
for each listed name with a tar suffix in order, never touches a path
without a tar suffix, and removes every listed tar-suffixed file whose
removal succeeds. -/
theorem delete_tar_subcommand_behavior
    (removeOk : String → Bool) (fs : ExistsFS) (listing : List String)
    (q : String) :
    tar_main ["delete_tar"] = .runDeleteTar ∧
    (delete_all_tar_files removeOk fs listing).2
      = (listing.filter is_tar_name).map
          (fun f => if removeOk f then DeleteTarEvent.deleted f
                    else DeleteTarEvent.deleteError f) ∧
    (is_tar_name q = false →
      (delete_all_tar_files removeOk fs listing).1 q = fs q) ∧
    (q ∈ listing → is_tar_name q = true → removeOk q = true →
      (delete_all_tar_files removeOk fs listing).1 q = false) := by
  refine ⟨by decide, ?_, ?_, ?_⟩
  · induction listing generalizing fs with
    | nil => rfl
    | cons f rest ih =>
        rw [delete_all_tar_files_cons]
        by_cases h1 : is_tar_name f = true
        · by_cases h2 : removeOk f = true
          · simp [h1, h2, ih]
          · simp [h1, h2, ih]
        · simp [h1, ih]
  · intro hq
    induction listing generalizing fs with
    | nil => rfl
    | cons f rest ih =>
        rw [delete_all_tar_files_cons]
        by_cases h1 : is_tar_name f = true
        · by_cases h2 : removeOk f = true
          · simp only [h1, h2, if_true]
            rw [ih]
            have hqf : q ≠ f := by
              intro e
              rw [e, h1] at hq
              cases hq
            simp [hqf]
          · simp only [h1, h2, if_true, if_false, Bool.false_eq_true]
            exact ih fs
        · simp only [h1, Bool.false_eq_true, if_false]
          exact ih fs
  · intro hmem hq hr
    induction listing generalizing fs with
    | nil => cases hmem
    | cons f rest ih =>
        rw [delete_all_tar_files_cons]
        rcases List.mem_cons.mp hmem with he | hm
        · rw [← he, hq, hr]
          simp only [if_true]
          exact delete_all_tar_files_stays_removed removeOk q rest _ (by simp)
        · by_cases h1 : is_tar_name f = true
          · by_cases h2 : removeOk f = true
            · simp only [h1, h2, if_true]
              exact ih _ hm
            · simp only [h1, h2, if_true, if_false, Bool.false_eq_true]
              exact ih _ hm
          · simp only [h1, Bool.false_eq_true, if_false]
            exact ih _ hm

/-- Witness for C10: a listing with one tar archive and one ordinary file;
the archive is deleted, the ordinary file is untouched. -/
theorem delete_tar_subcommand_behavior_witness :
    (delete_all_tar_files (fun _ => true) (fun _ => true)
        ["a.tar.gz", "b.txt"]).1 "b.txt" = true ∧
    (delete_all_tar_files (fun _ => true) (fun _ => true)
        ["a.tar.gz", "b.txt"]).1 "a.tar.gz" = false ∧
    (delete_all_tar_files (fun _ => true) (fun _ => true)
        ["a.tar.gz", "b.txt"]).2 = [.deleted "a.tar.gz"] := by
  have h := delete_tar_subcommand_behavior (fun _ => true) (fun _ => true)
    ["a.tar.gz", "b.txt"] "b.txt"
  have h2 := delete_tar_subcommand_behavior (fun _ => true) (fun _ => true)
    ["a.tar.gz", "b.txt"] "a.tar.gz"
  refine ⟨h.2.2.1 (by decide), h2.2.2.2 (by decide) (by decide) rfl, ?_⟩
  rw [h.2.1]
  decide

end PreserveFiles
